import Mathlib

/-!
Verification of the register-access protocol layer of `aioc-util.py`
(a CLI that configures an AIOC USB audio/radio interface over HID).

The Python source is shallowly embedded below: machine integers become
`Nat` with explicit `% 2^w` / bounds checks where the Python `struct`
enforces ranges, byte strings become `List Nat`, and fallible code
(`struct.error`, `KeyError`) returns `Option`.
-/

namespace AiocUtil

/-- Source `class Command(IntFlag)`: command NONE = 0x00. -/
def Command.NONE : Nat := 0x00

/-- Source `class Command(IntFlag)`: WRITESTROBE = 0x01. -/
def Command.WRITESTROBE : Nat := 0x01

/-- Source `class Command(IntFlag)`: DEFAULTS = 0x10. -/
def Command.DEFAULTS : Nat := 0x10

/-- Source `class Command(IntFlag)`: REBOOT = 0x20. -/
def Command.REBOOT : Nat := 0x20

/-- Source `class Command(IntFlag)`: RECALL = 0x40. -/
def Command.RECALL : Nat := 0x40

/-- Source `class Command(IntFlag)`: STORE = 0x80. -/
def Command.STORE : Nat := 0x80

/-- Source `class Register(IntEnum)`: the register address table, in
definition order (used by `dump`, which iterates the enum). -/
def registerTable : List Nat :=
  [0x00, 0x08, 0x24, 0x25, 0x44, 0x45, 0x46, 0x47, 0x60, 0x64, 0x65, 0x66,
   0x67, 0x72, 0x78, 0x82, 0x84, 0x92, 0x94, 0xA0, 0xA2, 0xA3, 0xA4, 0xA5]

/-- Register MAGIC = 0x00. -/
def Register.MAGIC : Nat := 0x00

/-- Register USBID = 0x08. -/
def Register.USBID : Nat := 0x08

/-- Register AIOC_IOMUX0 = 0x24 (PTT1 source). -/
def Register.AIOC_IOMUX0 : Nat := 0x24

/-- Register AIOC_IOMUX1 = 0x25 (PTT2 source). -/
def Register.AIOC_IOMUX1 : Nat := 0x25

/-- Register CM108_IOMUX0 = 0x44. -/
def Register.CM108_IOMUX0 : Nat := 0x44

/-- Register CM108_IOMUX1 = 0x45. -/
def Register.CM108_IOMUX1 : Nat := 0x45

/-- Register CM108_IOMUX2 = 0x46. -/
def Register.CM108_IOMUX2 : Nat := 0x46

/-- Register CM108_IOMUX3 = 0x47. -/
def Register.CM108_IOMUX3 : Nat := 0x47

/-- Register AUDIO_RX = 0x72. -/
def Register.AUDIO_RX : Nat := 0x72

/-- Register AUDIO_TX = 0x78. -/
def Register.AUDIO_TX : Nat := 0x78

/-- Register VPTT_LVLCTRL = 0x82. -/
def Register.VPTT_LVLCTRL : Nat := 0x82

/-- Register VPTT_TIMCTRL = 0x84. -/
def Register.VPTT_TIMCTRL : Nat := 0x84

/-- Register VCOS_LVLCTRL = 0x92. -/
def Register.VCOS_LVLCTRL : Nat := 0x92

/-- Register VCOS_TIMCTRL = 0x94. -/
def Register.VCOS_TIMCTRL : Nat := 0x94

/-- Register FOXHUNT_CTRL = 0xA0. -/
def Register.FOXHUNT_CTRL : Nat := 0xA0

/-- Register FOXHUNT_MSG0 = 0xA2. -/
def Register.FOXHUNT_MSG0 : Nat := 0xA2

/-- Register FOXHUNT_MSG1 = 0xA3. -/
def Register.FOXHUNT_MSG1 : Nat := 0xA3

/-- Register FOXHUNT_MSG2 = 0xA4. -/
def Register.FOXHUNT_MSG2 : Nat := 0xA4

/-- Register FOXHUNT_MSG3 = 0xA5. -/
def Register.FOXHUNT_MSG3 : Nat := 0xA5

/-- The four little-endian bytes of a 32-bit value, as produced by
Python `Struct("<L").pack` and little-endian `int.to_bytes(4)`. -/
def leBytes4 (v : Nat) : List Nat :=
  [v % 256, v / 256 % 256, v / 65536 % 256, v / 16777216 % 256]

/-- Python `Struct("<BBBL").pack(b1, b2, b3, v)`: three unsigned bytes
followed by a little-endian unsigned 32-bit value.  `struct.pack` raises
`struct.error` when an argument is out of range, embedded as `none`. -/
def packBBBL (b1 b2 b3 v : Nat) : Option (List Nat) :=
  if b1 < 256 ∧ b2 < 256 ∧ b3 < 256 ∧ v < 4294967296 then
    some ([b1, b2, b3] ++ leBytes4 v)
  else none

/-- Source `write_feat_report(device, address, value)`: the 7-byte
feature-report frame `Struct("<BBBL").pack(0, Command.WRITESTROBE, address,
value)` that it sends. -/
def write_feat_report_frame (address value : Nat) : Option (List Nat) :=
  packBBBL 0 Command.WRITESTROBE address value

/-- Source `read(device, address)`, first transport call: the address-select
frame `Struct("<BBBL").pack(0, Command.NONE, address, 0)`. -/
def read_request_frame (address : Nat) : Option (List Nat) :=
  packBBBL 0 Command.NONE address 0

/-- Source `cmd(device, cmd)`: the bare-command frame
`Struct("<BBBL").pack(0, cmd, 0, 0)`. -/
def cmd_frame (c : Nat) : Option (List Nat) :=
  packBBBL 0 c 0 0

/-- Source `read(device, address)`, decoding step:
`Struct("<BBBL").unpack(data)` discarding the first three fields.
`struct.unpack` raises `struct.error` unless the input is exactly 7 bytes,
embedded as `none`. -/
def decode_read_response (data : List Nat) : Option Nat :=
  match data with
  | [_, _, _, v0, v1, v2, v3] => some (v0 + 256 * v1 + 65536 * v2 + 16777216 * v3)
  | _ => none

/-- Source `set_ptt_state_raw(device, pin_num, state_on)`: the 5-byte HID
output report `Struct("<BBBBB").pack(0, 0, iodata, iomask, 0)` with
`iomask = 1 << (pin_num - 1)` and `iodata = state << (pin_num - 1)` where
`state` is 1 when asserted else 0.  `struct.pack` raises for a byte
argument ≥ 256 (i.e. `pin_num > 8`), embedded as `none`. -/
def set_ptt_state_raw_frame (pin_num : Nat) (state_on : Bool) : Option (List Nat) :=
  let state : Nat := if state_on then 1 else 0
  let iomask := 1 <<< (pin_num - 1)
  let iodata := state <<< (pin_num - 1)
  if iodata < 256 ∧ iomask < 256 then some [0, 0, iodata, iomask, 0] else none

/-- Source `class PTTChannel(IntEnum)`: PTT1 = 3. -/
def PTTChannel.PTT1 : Nat := 3

/-- Source `class PTTChannel(IntEnum)`: PTT2 = 4. -/
def PTTChannel.PTT2 : Nat := 4

/-- Claim C1: for every 8-bit address and 32-bit value, the register-write
encoder produces exactly the 7-byte frame
`[0x00, 0x01 (WRITESTROBE), address, value as 4 little-endian bytes]`;
in particular writing 0x1002 to address 0x24 yields exactly
`[0x00, 0x01, 0x24, 0x02, 0x10, 0x00, 0x00]`. -/
theorem write_frame_shape :
    (∀ address value : Nat, address < 256 → value < 4294967296 →
      ∃ b0 b1 b2 b3 : Nat,
        write_feat_report_frame address value =
          some [0, Command.WRITESTROBE, address, b0, b1, b2, b3] ∧
        value = b0 + 256 * b1 + 65536 * b2 + 16777216 * b3 ∧
        b0 < 256 ∧ b1 < 256 ∧ b2 < 256 ∧ b3 < 256) ∧
    write_feat_report_frame 0x24 0x1002 =
      some [0x00, 0x01, 0x24, 0x02, 0x10, 0x00, 0x00] := by
  constructor
  · intro address value ha hv
    refine ⟨value % 256, value / 256 % 256, value / 65536 % 256, value / 16777216 % 256,
      ?_, by omega, by omega, by omega, by omega, by omega⟩
    simp only [write_feat_report_frame, packBBBL, leBytes4, Command.WRITESTROBE]
    rw [if_pos (by omega)]
    rfl
  · rfl

/-- Claim C1 witness: the universal part of `write_frame_shape`
instantiated at address 0x24, value 0x1002. -/
theorem write_frame_shape_witness :
    ∃ b0 b1 b2 b3 : Nat,
      write_feat_report_frame 0x24 0x1002 =
        some [0, Command.WRITESTROBE, 0x24, b0, b1, b2, b3] ∧
      0x1002 = b0 + 256 * b1 + 65536 * b2 + 16777216 * b3 ∧
      b0 < 256 ∧ b1 < 256 ∧ b2 < 256 ∧ b3 < 256 :=
  write_frame_shape.1 0x24 0x1002 (by decide) (by decide)

/-- Claim C9: decoding a 7-byte read response returns the 32-bit value
formed little-endian from byte offsets 3 through 6, independent of the
first three echoed bytes; any other length fails (`struct.error`). -/
theorem read_response_decode :
    (∀ b0 b1 b2 v0 v1 v2 v3 : Nat,
      decode_read_response [b0, b1, b2, v0, v1, v2, v3] =
        some (v0 + 256 * v1 + 65536 * v2 + 16777216 * v3)) ∧
    (∀ data : List Nat, data.length ≠ 7 → decode_read_response data = none) := by
  constructor
  · intro b0 b1 b2 v0 v1 v2 v3
    rfl
  · intro data h
    rcases data with _ | ⟨a, _ | ⟨b, _ | ⟨c, _ | ⟨d, _ | ⟨e, _ | ⟨f, _ | ⟨g, _ | ⟨x, rest⟩⟩⟩⟩⟩⟩⟩⟩ <;>
      simp_all [decode_read_response]

/-- Claim C9 witness: `read_response_decode` applied at a concrete 7-byte
frame (value bytes 02 10 00 00, echo bytes ignored) and at a concrete
6-byte (short) input. -/
theorem read_response_decode_witness :
    decode_read_response [9, 9, 9, 0x02, 0x10, 0x00, 0x00] = some 0x1002 ∧
    decode_read_response [0, 0, 0, 0, 0, 0] = none :=
  ⟨read_response_decode.1 9 9 9 0x02 0x10 0x00 0x00,
   read_response_decode.2 [0, 0, 0, 0, 0, 0] (by decide)⟩

/-- Claim C2 counterexample: the claim asserts that for every boolean
`asserted` the bit at position `pin_number - 1` is set in both the data
byte and the mask byte; but encoding pin 3 deasserted yields
`[0, 0, 0x00, 0x04, 0]` — the data byte is 0, so bit 2 is not set in it. -/
theorem raw_pin_deasserted_data_byte_clear :
    set_ptt_state_raw_frame 3 false = some [0, 0, 0, 4, 0] ∧
    Nat.testBit 0 2 = false := by
  constructor
  · rfl
  · decide

/-- Claim C2 as amended: for every pin number in 1..8, the raw-pin encoder
produces the 5-byte frame `[0, 0, data, mask, 0]` where the mask byte has
exactly one bit set, at position `pin_number - 1`, and the data byte equals
the mask byte when `asserted` is true and 0 when `asserted` is false. -/
theorem raw_pin_frame_shape (pin_num : Nat) (asserted : Bool)
    (h1 : 1 ≤ pin_num) (h8 : pin_num ≤ 8) :
    set_ptt_state_raw_frame pin_num asserted =
      some [0, 0, if asserted then 1 <<< (pin_num - 1) else 0, 1 <<< (pin_num - 1), 0] ∧
    (∀ i : Nat, (1 <<< (pin_num - 1)).testBit i = decide (i = pin_num - 1)) := by
  have hm : (1 : Nat) <<< (pin_num - 1) < 256 := by
    interval_cases pin_num <;> decide
  constructor
  · cases asserted <;> simp [set_ptt_state_raw_frame, hm]
  · intro i
    have h : (1 : Nat) <<< (pin_num - 1) = 2 ^ (pin_num - 1) := by
      simp [Nat.shiftLeft_eq]
    rw [h, Nat.testBit_two_pow]
    simp [eq_comm]

/-- Claim C2 witness: `raw_pin_frame_shape` at pin 3, asserted, giving the
frame `[0x00, 0x00, 0x04, 0x04, 0x00]` claimed by the spec. -/
theorem raw_pin_frame_shape_witness :
    set_ptt_state_raw_frame 3 true = some [0, 0, if true then 1 <<< 2 else 0, 1 <<< 2, 0] ∧
    (∀ i : Nat, ((1 : Nat) <<< 2).testBit i = decide (i = 2)) :=
  raw_pin_frame_shape 3 true (by decide) (by decide)

/-- Claim C10: PTT channel 1 is driven via pin number 3 and PTT channel 2
via pin number 4, so the raw-pin frames use bit index 2 (value 0x04) for
PTT1 and bit index 3 (value 0x08) for PTT2, in both data and mask when
asserted and in the mask alone when deasserted. -/
theorem ptt_channel_pin_mapping :
    PTTChannel.PTT1 = 3 ∧ PTTChannel.PTT2 = 4 ∧
    set_ptt_state_raw_frame PTTChannel.PTT1 true = some [0, 0, 0x04, 0x04, 0] ∧
    set_ptt_state_raw_frame PTTChannel.PTT2 true = some [0, 0, 0x08, 0x08, 0] ∧
    set_ptt_state_raw_frame PTTChannel.PTT1 false = some [0, 0, 0, 0x04, 0] ∧
    set_ptt_state_raw_frame PTTChannel.PTT2 false = some [0, 0, 0, 0x08, 0] ∧
    (0x04 : Nat) = 2 ^ 2 ∧ (0x08 : Nat) = 2 ^ 3 := by
  refine ⟨rfl, rfl, rfl, rfl, rfl, rfl, rfl, rfl⟩

/-- Source `class PTTSource(StrIntFlag)`: the PTT-source flag enumeration,
as (name, value) pairs in definition order. -/
def pttMembers : List (String × Nat) :=
  [("NONE", 0x00000000),
   ("CM108GPIO1", 0x00000001),
   ("CM108GPIO2", 0x00000002),
   ("CM108GPIO3", 0x00000004),
   ("CM108GPIO4", 0x00000008),
   ("SERIALDTR", 0x00000100),
   ("SERIALRTS", 0x00000200),
   ("SERIALDTRNRTS", 0x00000400),
   ("SERIALNDTRRTS", 0x00000800),
   ("VPTT", 0x00001000)]

/-- Source `class CM108ButtonSource(StrIntFlag)`: the button-source flag
enumeration, as (name, value) pairs in definition order. -/
def btnMembers : List (String × Nat) :=
  [("NONE", 0x00000000),
   ("IN1", 0x00010000),
   ("IN2", 0x00020000),
   ("VCOS", 0x01000000)]

/-- Python enum name lookup `Enum[name]`: the value of the member with the
given name, or `none` (Python raises `KeyError`) when no member has it. -/
def flagLookup (members : List (String × Nat)) (name : String) : Option Nat :=
  (members.find? (fun m => m.1 == name)).map (fun m => m.2)

/-- Python `str.split("|")` on the character list of the input: splits at
every pipe character; an input with no pipe yields a single part, and empty
parts are kept, exactly as in Python. -/
def splitPipe : List Char → List (List Char)
  | [] => [[]]
  | c :: cs =>
    match splitPipe cs with
    | [] => [[c]]
    | r :: rs => if c = '|' then [] :: r :: rs else (c :: r) :: rs

/-- Python `sum(Enum[p] for p in parts)`: the arithmetic sum of the looked-up
values, evaluated left to right; `none` (an uncaught `KeyError`) as soon as a
name is missing from the enumeration. -/
def sumFlags (members : List (String × Nat)) : List String → Option Nat
  | [] => some 0
  | p :: ps =>
    match flagLookup members p, sumFlags members ps with
    | some v, some r => some (v + r)
    | _, _ => none

/-- Source `parse_ptt_source(val)`: `val.split("|")` then
`sum(PTTSource[p] for p in parts)`. -/
def parse_ptt_source (val : String) : Option Nat :=
  sumFlags pttMembers ((splitPipe val.data).map (fun cs => String.mk cs))

/-- Source `parse_btn_source(val)`: `val.split("|")` then
`sum(CM108ButtonSource[p] for p in parts)`. -/
def parse_btn_source (val : String) : Option Nat :=
  sumFlags btnMembers ((splitPipe val.data).map (fun cs => String.mk cs))

/-- Python `"|".join(parts)`. -/
def joinPipe : List String → String
  | [] => ""
  | [s] => s
  | s :: rest => s ++ "|" ++ joinPipe rest

/-- Python `hex(n)` for a nonnegative integer: `0x` followed by the
lowercase hexadecimal digits. -/
def hexStr (n : Nat) : String :=
  "0x" ++ String.mk (Nat.toDigits 16 n)

/-- The OR of all member values of an enumeration (Python `_flag_mask_`). -/
def flagMask (members : List (String × Nat)) : Nat :=
  (members.map (fun m => m.2)).foldr (fun x y => x ||| y) 0

/-- Python `str(n)` for a nonnegative integer: decimal digits. -/
def decStr (n : Nat) : String :=
  String.mk (Nat.toDigits 10 n)

/-- Source `StrIntFlag.__str__` under Python 3.11+ `IntFlag` (boundary
KEEP) semantics, checked by execution.  `self.name` is non-None when the
raw value equals the value of a defined member (the first such member,
matching the Python alias resolution), and also when the value has at
least one bit inside the flag mask: the pseudo-member name is then the
`|`-joined names of the canonical members of the in-mask part, in
ascending bit order (equal to definition order here, every member being a
single bit), followed — when out-of-mask bits remain — by `|` and the
decimal form of that remainder.  Only when no in-mask bit is present is
the name None; the `parts` loop of `__str__` then finds no contained
member either, and `hex(value)` is returned. -/
def strIntFlag_str (members : List (String × Nat)) (raw : Nat) : String :=
  match members.find? (fun m => m.2 == raw) with
  | some m => m.1
  | none =>
    let known := raw &&& flagMask members
    let unknown := raw ^^^ known
    if known != 0 then
      joinPipe ((members.filter (fun m => m.2 != 0 && (known &&& m.2 == m.2))).map (fun m => m.1)) ++
        (if unknown != 0 then "|" ++ decStr unknown else "")
    else hexStr raw

/-- Helper: a `sumFlags` failure propagates — if any listed name is missing
from the enumeration the whole parse returns `none`. -/
theorem sumFlags_eq_none_of_mem {members : List (String × Nat)} {p : String}
    (ps : List String) (hp : p ∈ ps) (h : flagLookup members p = none) :
    sumFlags members ps = none := by
  induction ps with
  | nil => cases hp
  | cons q qs ih =>
    rcases List.mem_cons.mp hp with rfl | hmem
    · simp [sumFlags, h]
    · simp only [sumFlags, ih hmem]
      cases flagLookup members q <;> rfl

/-- Helper: when every listed name resolves, `sumFlags` returns the sum of
the resolved values. -/
theorem sumFlags_eq_sum {members : List (String × Nat)} (ps : List String)
    (h : ∀ p ∈ ps, (flagLookup members p).isSome) :
    sumFlags members ps =
      some ((ps.map (fun p => (flagLookup members p).getD 0)).sum) := by
  induction ps with
  | nil => rfl
  | cons q qs ih =>
    have hq : (flagLookup members q).isSome := h q (List.mem_cons_self q qs)
    rcases ho : flagLookup members q with _ | v
    · rw [ho] at hq; cases hq
    · have := ih (fun p hp => h p (List.mem_cons_of_mem q hp))
      simp [sumFlags, ho, this]

/-- Helper: two naturals with disjoint bits add with no carries, so their
sum is their bitwise OR. -/
theorem add_eq_or_of_and_eq_zero : ∀ a b : Nat, a &&& b = 0 → a + b = a ||| b := by
  intro a
  induction a using Nat.binaryRec with
  | z => intro b _; simp
  | f c n ih =>
    intro b h
    induction b using Nat.bitCasesOn with
    | h d m =>
      rw [Nat.land_bit] at h
      obtain ⟨hm, hcd⟩ := Nat.bit_eq_zero_iff.mp h
      have hnm := ih m hm
      rw [Nat.lor_bit, Nat.bit_val, Nat.bit_val, Nat.bit_val]
      cases c <;> cases d
      · simp only [Bool.toNat_false, Bool.or_false]; omega
      · simp only [Bool.toNat_false, Bool.toNat_true, Bool.false_or]; omega
      · simp only [Bool.toNat_false, Bool.toNat_true, Bool.or_false]; omega
      · simp at hcd

/-- Helper: OR distributes over AND on `Nat`, bitwise. -/
theorem nat_and_or_left (a b c : Nat) : a &&& (b ||| c) = (a &&& b) ||| (a &&& c) := by
  apply Nat.eq_of_testBit_eq
  intro i
  simp [Nat.testBit_and, Nat.testBit_or, Bool.and_or_distrib_left]

/-- Helper: a value with disjoint bits from every element of a list has
disjoint bits from their OR-fold. -/
theorem and_foldr_or_eq_zero {a : Nat} (l : List Nat) (h : ∀ x ∈ l, a &&& x = 0) :
    a &&& l.foldr (fun x y => x ||| y) 0 = 0 := by
  induction l with
  | nil => simp
  | cons x xs ih =>
    simp only [List.foldr_cons]
    rw [nat_and_or_left, h x (List.mem_cons_self x xs),
      ih (fun y hy => h y (List.mem_cons_of_mem x hy))]
    rfl

/-- Helper: the sum of a list of pairwise bit-disjoint naturals equals their
bitwise-OR fold. -/
theorem sum_eq_foldr_or {l : List Nat} (h : l.Pairwise (fun a b => a &&& b = 0)) :
    l.sum = l.foldr (fun x y => x ||| y) 0 := by
  induction l with
  | nil => rfl
  | cons x xs ih =>
    rcases List.pairwise_cons.mp h with ⟨hx, hxs⟩
    simp only [List.sum_cons, List.foldr_cons, ih hxs]
    exact add_eq_or_of_and_eq_zero _ _ (and_foldr_or_eq_zero xs hx)

/-- Claim C3 counterexample: the claim says the encoder returns the bitwise
OR of the listed values, but the source sums them: `"VPTT|VPTT"` lists VPTT
(0x1000) twice, whose OR is 0x1000, yet `parse_ptt_source` returns 0x2000. -/
theorem parse_ptt_source_sums_not_ors :
    parse_ptt_source "VPTT|VPTT" = some 0x2000 ∧
    (0x1000 ||| 0x1000 : Nat) = 0x1000 ∧ (0x2000 : Nat) ≠ 0x1000 := by
  refine ⟨rfl, rfl, by decide⟩

/-- Claim C3 as amended: for every `|`-separated string of names that all
belong to the enumeration, the flag encoder returns the arithmetic sum of
the listed values; since the sum of pairwise bit-disjoint values is their
bitwise OR, this coincides with the OR whenever no bit is listed twice — in
particular `"CM108GPIO2|VPTT"` yields 0x00001002. -/
theorem parse_ptt_source_sum (val : String)
    (h : ∀ p ∈ (splitPipe val.data).map (fun cs => String.mk cs),
      (flagLookup pttMembers p).isSome) :
    parse_ptt_source val =
      some ((((splitPipe val.data).map (fun cs => String.mk cs)).map
        (fun p => (flagLookup pttMembers p).getD 0)).sum) ∧
    (∀ l : List Nat, l.Pairwise (fun a b => a &&& b = 0) →
      l.sum = l.foldr (fun x y => x ||| y) 0) ∧
    parse_ptt_source "CM108GPIO2|VPTT" = some 0x1002 :=
  ⟨sumFlags_eq_sum _ h, fun _ hl => sum_eq_foldr_or hl, rfl⟩

/-- Claim C3 witness: `parse_ptt_source_sum` at the concrete input
`"CM108GPIO2|VPTT"`, whose parts all resolve; the resolved values sum to
0x1002, which equals their bitwise OR. -/
theorem parse_ptt_source_sum_witness :
    parse_ptt_source "CM108GPIO2|VPTT" =
      some ((((splitPipe "CM108GPIO2|VPTT".data).map (fun cs => String.mk cs)).map
        (fun p => (flagLookup pttMembers p).getD 0)).sum) ∧
    ([0x2, 0x1000] : List Nat).sum = ([0x2, 0x1000] : List Nat).foldr (fun x y => x ||| y) 0 :=
  ⟨(parse_ptt_source_sum "CM108GPIO2|VPTT" (by decide)).1,
   (parse_ptt_source_sum "CM108GPIO2|VPTT" (by decide)).2.1 [0x2, 0x1000] (by decide)⟩

/-- Claim C8: a `|`-separated string containing any name absent from the
enumeration makes the whole parse fail (`KeyError` in the source, `none`
here) — no partial mask is produced. -/
theorem parse_ptt_source_unknown_name (val : String) (p : String)
    (hp : p ∈ (splitPipe val.data).map (fun cs => String.mk cs))
    (h : flagLookup pttMembers p = none) :
    parse_ptt_source val = none :=
  sumFlags_eq_none_of_mem _ hp h

/-- Claim C8 witness: `parse_ptt_source_unknown_name` at the concrete input
`"BOGUS"`, a name absent from the PTT enumeration. -/
theorem parse_ptt_source_unknown_name_witness :
    parse_ptt_source "BOGUS" = none :=
  parse_ptt_source_unknown_name "BOGUS" "BOGUS" (by decide) (by decide)

/-- Helper: AND absorbs an OR containing the same operand. -/
theorem nat_and_or_self (a b : Nat) : a &&& (a ||| b) = a := by
  apply Nat.eq_of_testBit_eq
  intro i
  cases h : a.testBit i <;> simp [Nat.testBit_and, Nat.testBit_or, h]

/-- Helper: ORing a value with a sub-mask of itself changes nothing. -/
theorem nat_and_or_absorb (a b : Nat) : (a &&& b) ||| a = a := by
  apply Nat.eq_of_testBit_eq
  intro i
  cases h : a.testBit i <;> simp [Nat.testBit_and, Nat.testBit_or, h]

/-- Helper: every member value lies inside the flag mask of its
enumeration. -/
theorem mem_and_flagMask (members : List (String × Nat)) :
    ∀ m ∈ members, m.2 &&& flagMask members = m.2 := by
  induction members with
  | nil => intro m hm; cases hm
  | cons a l ih =>
    intro m hm
    have hfm : flagMask (a :: l) = a.2 ||| flagMask l := rfl
    rcases List.mem_cons.mp hm with rfl | hmem
    · rw [hfm]
      exact nat_and_or_self m.2 (flagMask l)
    · rw [hfm, nat_and_or_left, ih m hmem]
      exact nat_and_or_absorb m.2 a.2

/-- Helper: a single-bit value not contained in `raw` shares no bit with
it. -/
theorem and_two_pow_eq_zero (raw k : Nat) (h : raw &&& 2 ^ k ≠ 2 ^ k) :
    raw &&& 2 ^ k = 0 := by
  cases hb : raw.testBit k
  · apply Nat.eq_of_testBit_eq
    intro i
    rcases eq_or_ne i k with rfl | hik
    · simp [Nat.testBit_and, hb]
    · simp [Nat.testBit_and, Nat.testBit_two_pow, Ne.symm hik]
  · exfalso
    apply h
    apply Nat.eq_of_testBit_eq
    intro i
    rcases eq_or_ne i k with rfl | hik
    · simp [Nat.testBit_and, Nat.testBit_two_pow, hb]
    · simp [Nat.testBit_and, Nat.testBit_two_pow, Ne.symm hik]

/-- Helper: the union branch of the display — when the raw value matches no
member exactly but has at least one bit inside the flag mask, the display
is the `|`-joined names of the nonzero members contained in the raw value,
followed, when bits outside the mask remain, by `|` and their decimal
form. -/
theorem strIntFlag_str_union (members : List (String × Nat)) (raw : Nat)
    (hne : ∀ m ∈ members, m.2 ≠ raw)
    (hk : raw &&& flagMask members ≠ 0) :
    strIntFlag_str members raw =
      joinPipe ((members.filter (fun m => m.2 != 0 && (raw &&& m.2 == m.2))).map
        (fun m => m.1)) ++
      (if (raw ^^^ (raw &&& flagMask members)) != 0 then
        "|" ++ decStr (raw ^^^ (raw &&& flagMask members)) else "") := by
  have hfind : members.find? (fun m => m.2 == raw) = none := by
    apply List.find?_eq_none.mpr
    intro m hm
    simpa using hne m hm
  have hfilter : members.filter
      (fun m => m.2 != 0 && ((raw &&& flagMask members) &&& m.2 == m.2)) =
      members.filter (fun m => m.2 != 0 && (raw &&& m.2 == m.2)) := by
    apply List.filter_congr
    intro m hm
    have h1 : (raw &&& flagMask members) &&& m.2 = raw &&& m.2 := by
      rw [Nat.and_assoc, Nat.and_comm (flagMask members) m.2,
        mem_and_flagMask members m hm]
    rw [h1]
  have hkb : (raw &&& flagMask members != 0) = true := by simpa using hk
  simp [strIntFlag_str, hfind, hkb, hfilter]

/-- Helper: the hexadecimal branch of the display — when the raw value
matches no member exactly and has no bit inside the flag mask, the display
is `hex(raw)`. -/
theorem strIntFlag_str_hexfall (members : List (String × Nat)) (raw : Nat)
    (hne : ∀ m ∈ members, m.2 ≠ raw)
    (hknown : raw &&& flagMask members = 0) :
    strIntFlag_str members raw = hexStr raw := by
  have hfind : members.find? (fun m => m.2 == raw) = none := by
    apply List.find?_eq_none.mpr
    intro m hm
    simpa using hne m hm
  simp [strIntFlag_str, hfind, hknown]

/-- Helper: under per-member noncontainment, a raw value shares no bit with
the flag mask of an enumeration whose nonzero members are single bits
below 2^25. -/
theorem flagMask_disjoint_of_not_contained (members : List (String × Nat))
    (raw : Nat)
    (hpow : ∀ m ∈ members, m.2 = 0 ∨ ∃ k, k < 25 ∧ m.2 = 2 ^ k)
    (h2 : ∀ m ∈ members, m.2 ≠ 0 → raw &&& m.2 ≠ m.2) :
    raw &&& flagMask members = 0 := by
  apply and_foldr_or_eq_zero
  intro v hv
  obtain ⟨m, hm, rfl⟩ := List.mem_map.mp hv
  rcases hpow m hm with hz | ⟨k, _, hk⟩
  · simp [hz]
  · rw [hk]
    apply and_two_pow_eq_zero
    rw [← hk]
    exact h2 m hm (by rw [hk]; exact (pow_pos (by norm_num) k).ne')

/-- Claim C4 counterexample: the claim says that whenever the raw value
equals no enumerated constant and at least one nonzero constant is
contained in it, the display is the `|`-joined names of the contained
constants — for raw 0x80000002 that would be "CM108GPIO2"; but the source
(Python 3.11+ `IntFlag.name`) appends the out-of-mask remainder in decimal
and displays "CM108GPIO2|2147483648". -/
theorem flag_display_mixed_bits_counterexample :
    strIntFlag_str pttMembers 0x80000002 = "CM108GPIO2|2147483648" ∧
    (∀ m ∈ pttMembers, m.2 ≠ 0x80000002) ∧
    ((pttMembers.filter (fun m => m.2 != 0 && ((0x80000002 : Nat) &&& m.2 == m.2))).map
      (fun m => m.1)) = ["CM108GPIO2"] ∧
    joinPipe ["CM108GPIO2"] = "CM108GPIO2" ∧
    "CM108GPIO2|2147483648" ≠ "CM108GPIO2" :=
  ⟨rfl, by decide, rfl, rfl, by decide⟩

/-- Claim C4 as amended: for both flag enumerations of the source
(PTT sources and button sources) and every 32-bit raw value, the display
follows this fallback order: a raw value equal to an enumerated constant
displays as that constant's single name (so 0 displays "NONE"); otherwise,
when at least one nonzero constant is contained in raw, the display is the
`|`-joined names of every such constant in enumeration-definition order,
followed — when raw also has bits outside the enumeration's flag mask — by
`|` and the decimal form of that remainder; otherwise the display is the
hexadecimal form of raw.  In particular 0x00001000 displays "VPTT",
0x00000009 displays "CM108GPIO1|CM108GPIO4", 0 displays "NONE", 0x80000000
displays "0x80000000", and 0x80000002 displays "CM108GPIO2|2147483648". -/
theorem flag_display_semantics :
    (∀ m ∈ pttMembers, strIntFlag_str pttMembers m.2 = m.1) ∧
    (∀ m ∈ btnMembers, strIntFlag_str btnMembers m.2 = m.1) ∧
    (∀ raw : Nat, (∀ m ∈ pttMembers, m.2 ≠ raw) →
      raw &&& flagMask pttMembers ≠ 0 →
      strIntFlag_str pttMembers raw =
        joinPipe ((pttMembers.filter (fun m => m.2 != 0 && (raw &&& m.2 == m.2))).map
          (fun m => m.1)) ++
        (if (raw ^^^ (raw &&& flagMask pttMembers)) != 0 then
          "|" ++ decStr (raw ^^^ (raw &&& flagMask pttMembers)) else "")) ∧
    (∀ raw : Nat, (∀ m ∈ btnMembers, m.2 ≠ raw) →
      raw &&& flagMask btnMembers ≠ 0 →
      strIntFlag_str btnMembers raw =
        joinPipe ((btnMembers.filter (fun m => m.2 != 0 && (raw &&& m.2 == m.2))).map
          (fun m => m.1)) ++
        (if (raw ^^^ (raw &&& flagMask btnMembers)) != 0 then
          "|" ++ decStr (raw ^^^ (raw &&& flagMask btnMembers)) else "")) ∧
    (∀ raw : Nat, (∀ m ∈ pttMembers, m.2 ≠ raw) →
      (∀ m ∈ pttMembers, m.2 ≠ 0 → raw &&& m.2 ≠ m.2) →
      strIntFlag_str pttMembers raw = hexStr raw) ∧
    (∀ raw : Nat, (∀ m ∈ btnMembers, m.2 ≠ raw) →
      (∀ m ∈ btnMembers, m.2 ≠ 0 → raw &&& m.2 ≠ m.2) →
      strIntFlag_str btnMembers raw = hexStr raw) ∧
    strIntFlag_str pttMembers 0x00001000 = "VPTT" ∧
    strIntFlag_str pttMembers 0x00000009 = "CM108GPIO1|CM108GPIO4" ∧
    strIntFlag_str pttMembers 0 = "NONE" ∧
    strIntFlag_str pttMembers 0x80000000 = "0x80000000" ∧
    strIntFlag_str pttMembers 0x80000002 = "CM108GPIO2|2147483648" := by
  refine ⟨by decide, by decide, ?_, ?_, ?_, ?_, rfl, rfl, rfl, rfl, rfl⟩
  · intro raw h1 hk
    exact strIntFlag_str_union pttMembers raw h1 hk
  · intro raw h1 hk
    exact strIntFlag_str_union btnMembers raw h1 hk
  · intro raw h1 h2
    exact strIntFlag_str_hexfall pttMembers raw h1
      (flagMask_disjoint_of_not_contained pttMembers raw (by decide) h2)
  · intro raw h1 h2
    exact strIntFlag_str_hexfall btnMembers raw h1
      (flagMask_disjoint_of_not_contained btnMembers raw (by decide) h2)

/-- Claim C4 witness: `flag_display_semantics` applied at the concrete raw
values 0x80000002 (union branch with decimal remainder, for the PTT
enumeration) and 0x80000000 (hexadecimal fallback). -/
theorem flag_display_semantics_witness :
    strIntFlag_str pttMembers 0x80000002 =
      joinPipe ((pttMembers.filter
        (fun m => m.2 != 0 && ((0x80000002 : Nat) &&& m.2 == m.2))).map
          (fun m => m.1)) ++
      (if ((0x80000002 : Nat) ^^^ ((0x80000002 : Nat) &&& flagMask pttMembers)) != 0 then
        "|" ++ decStr ((0x80000002 : Nat) ^^^ ((0x80000002 : Nat) &&& flagMask pttMembers))
      else "") ∧
    strIntFlag_str pttMembers 0x80000000 = hexStr 0x80000000 :=
  ⟨flag_display_semantics.2.2.1 0x80000002 (by decide) (by decide),
   flag_display_semantics.2.2.2.2.1 0x80000000 (by decide) (by decide)⟩

/-- Source `main` (--set-usb): `value = (pid << 16) | (vid << 0)`. -/
def pack_usbid (vid pid : Nat) : Nat :=
  (pid <<< 16) ||| (vid <<< 0)

/-- Modelled from the spec: the VID sub-field of the USBID register
(`vid@0:16`); the source only prints the raw USBID value, so the per-field
unpack exists only in the field layout of the spec. -/
def usbid_vid_field (v : Nat) : Nat := v &&& 0xFFFF

/-- Modelled from the spec: the PID sub-field of the USBID register
(`pid@16:16`); the source only prints the raw USBID value, so the per-field
unpack exists only in the field layout of the spec. -/
def usbid_pid_field (v : Nat) : Nat := (v >>> 16) &&& 0xFFFF

/-- Source `main` (foxhunt ctrl pack):
`new_foxhunt = (new_volume << 16) | (new_wpm << 8) | (new_interval << 0)`. -/
def pack_foxhunt (volume wpm interval : Nat) : Nat :=
  (volume <<< 16) ||| (wpm <<< 8) ||| (interval <<< 0)

/-- Source `main` (foxhunt ctrl unpack):
`current_volume = (current_foxhunt >> 16) & 0xFFFF`. -/
def foxhunt_volume_field (v : Nat) : Nat := (v >>> 16) &&& 0xFFFF

/-- Source `main` (foxhunt ctrl unpack):
`current_wpm = (current_foxhunt >> 8) & 0xFF`. -/
def foxhunt_wpm_field (v : Nat) : Nat := (v >>> 8) &&& 0xFF

/-- Source `main` (foxhunt ctrl unpack):
`current_interval = (current_foxhunt >> 0) & 0xFF`. -/
def foxhunt_interval_field (v : Nat) : Nat := (v >>> 0) &&& 0xFF

/-- Claim C5 counterexample: the claim says packing an over-width field
value silently truncates its high bits; but the source masks nothing —
packing vid = 0x1FFFF with pid = 0 yields the register value 0x1FFFF, not
the truncated 0xFFFF, and the overflow bit lands in the PID field, which
reads back as 1 instead of the 0 that was packed; foxhunt packing behaves
the same (interval = 0x1FF corrupts the WPM field). -/
theorem pack_fields_no_truncation :
    pack_usbid 0x1FFFF 0 = 0x1FFFF ∧ (0x1FFFF : Nat) ≠ 0xFFFF ∧
    usbid_pid_field (pack_usbid 0x1FFFF 0) = 1 ∧ (1 : Nat) ≠ 0 ∧
    pack_foxhunt 0 0 0x1FF = 0x1FF ∧
    foxhunt_wpm_field (pack_foxhunt 0 0 0x1FF) = 1 := by
  refine ⟨by decide, by decide, by decide, by decide, by decide, by decide⟩

/-- Claim C5 as amended: packing does not mask field values and raises no
field-level error; the high bits of an over-width value carry into the
bit positions of the higher-order fields instead of being truncated.
Unpacking the lowest field after packing always recovers its value reduced
to its width, but the overflow corrupts the adjacent field: for every vid
and pid the unpacked VID field of the packed USBID word is `vid mod 2^16`,
while the unpacked PID field is `(pid OR (vid >> 16)) mod 2^16` rather than
`pid mod 2^16`; in particular vid = 0x1FFFF, pid = 0 packs to 0x1FFFF, whose
VID field is 0xFFFF and whose PID field is 1.  Likewise for every foxhunt
volume/wpm/interval the unpacked interval field is `interval mod 2^8`. -/
theorem pack_fields_overflow_carries :
    (∀ vid pid : Nat, usbid_vid_field (pack_usbid vid pid) = vid % 65536) ∧
    (∀ vid pid : Nat,
      usbid_pid_field (pack_usbid vid pid) = (pid ||| (vid >>> 16)) % 65536) ∧
    (∀ volume wpm interval : Nat,
      foxhunt_interval_field (pack_foxhunt volume wpm interval) = interval % 256) ∧
    pack_usbid 0x1FFFF 0 = 0x1FFFF ∧
    usbid_vid_field 0x1FFFF = 0xFFFF ∧
    usbid_pid_field 0x1FFFF = 1 := by
  have hmask : ∀ x : Nat, ∀ k : Nat, x &&& (2 ^ k - 1) = x % 2 ^ k := by
    intro x k
    apply Nat.eq_of_testBit_eq
    intro i
    rw [Nat.testBit_and, Nat.testBit_mod_two_pow, Nat.testBit_two_pow_sub_one,
      Bool.and_comm]
  have key : ∀ x y n : Nat, (∀ i, i < n → x.testBit i = y.testBit i) →
      x % 2 ^ n = y % 2 ^ n := by
    intro x y n h
    apply Nat.eq_of_testBit_eq
    intro i
    rw [Nat.testBit_mod_two_pow, Nat.testBit_mod_two_pow]
    by_cases hi : i < n
    · simp [hi, h i hi]
    · simp [hi]
  have hff : (0xFFFF : Nat) = 2 ^ 16 - 1 := by norm_num
  have h8 : (0xFF : Nat) = 2 ^ 8 - 1 := by norm_num
  refine ⟨?_, ?_, ?_, by decide, by decide, by decide⟩
  · intro vid pid
    rw [show (65536 : Nat) = 2 ^ 16 by norm_num, usbid_vid_field, hff, hmask]
    apply key
    intro i hi
    simp only [pack_usbid, Nat.testBit_or, Nat.testBit_shiftLeft, Nat.shiftLeft_zero]
    simp [show ¬ (16 ≤ i) from by omega]
  · intro vid pid
    have hsh : pack_usbid vid pid >>> 16 = pid ||| (vid >>> 16) := by
      apply Nat.eq_of_testBit_eq
      intro i
      simp [pack_usbid, Nat.testBit_or, Nat.testBit_shiftRight, Nat.testBit_shiftLeft,
        Nat.add_sub_cancel_left]
    rw [usbid_pid_field, hsh, hff, hmask, show (2 ^ 16 : Nat) = 65536 by norm_num]
  · intro volume wpm interval
    rw [show (256 : Nat) = 2 ^ 8 by norm_num, foxhunt_interval_field,
      Nat.shiftRight_zero, h8, hmask]
    apply key
    intro i hi
    simp only [pack_foxhunt, Nat.testBit_or, Nat.testBit_shiftLeft, Nat.shiftLeft_zero]
    simp [show ¬ (16 ≤ i) from by omega, show ¬ (8 ≤ i) from by omega]

/-- Python bytes `.ljust(16)` with a zero-byte filler: right-pad to
length 16 (already-long-enough inputs are unchanged). -/
def padTo16 (bs : List Nat) : List Nat :=
  bs ++ List.replicate (16 - bs.length) 0

/-- Python little-endian `int.from_bytes(bs)`. -/
def fromBytesLE : List Nat → Nat
  | [] => 0
  | b :: rest => b + 256 * fromBytesLE rest

/-- Python little-endian `uint32.to_bytes(4)` (values read back from
the device are always < 2^32, coming from a `<L` unpack). -/
def toBytesLE4 (n : Nat) : List Nat :=
  [n % 256, n / 256 % 256, n / 65536 % 256, n / 16777216 % 256]

/-- Source `main` (--foxhunt-message pack): encode, truncate to 16 bytes,
null-pad to 16, then convert each 4-byte slice, little-endian, into the
uint32 written to FOXHUNT_MSG0..3 in address order.  The argument is the
byte sequence produced by the replacing Python ASCII `encode`,
which is the identity on ASCII text. -/
def pack_message (s : List Nat) : List Nat :=
  let mb := padTo16 (s.take 16)
  [fromBytesLE (mb.take 4), fromBytesLE ((mb.drop 4).take 4),
   fromBytesLE ((mb.drop 8).take 4), fromBytesLE ((mb.drop 12).take 4)]

/-- Source `main` (--foxhunt-get-message unpack): convert each word read
from FOXHUNT_MSG0..3 to 4 little-endian bytes, concatenate in order, then
truncate at the first zero byte (Python `bytearray.index(0)`; when no zero
byte exists the `ValueError` branch keeps all 16 bytes — the same as taking
the longest zero-free prefix). -/
def unpack_message (ws : List Nat) : List Nat :=
  ((ws.map toBytesLE4).flatten).takeWhile (fun b => b != 0)

/-- Helper: little-endian 4-byte round trip for a block of four in-range
bytes. -/
theorem toBytes_fromBytes4 (l : List Nat) (hlen : l.length = 4)
    (hb : ∀ b ∈ l, b < 256) :
    toBytesLE4 (fromBytesLE l) = l := by
  rcases l with _ | ⟨b0, _ | ⟨b1, _ | ⟨b2, _ | ⟨b3, _ | ⟨b4, rest⟩⟩⟩⟩⟩ <;>
    simp_all [toBytesLE4, fromBytesLE]
  omega

/-- Helper: `takeWhile` passes over a prefix whose elements all satisfy the
predicate. -/
theorem takeWhile_append_of_all {p : Nat → Bool} (l r : List Nat)
    (h : ∀ x ∈ l, p x = true) :
    (l ++ r).takeWhile p = l ++ r.takeWhile p := by
  induction l with
  | nil => rfl
  | cons a as ih =>
    have ha : p a = true := h a (List.mem_cons_self a as)
    simp [List.takeWhile_cons, ha, ih (fun x hx => h x (List.mem_cons_of_mem a hx))]

/-- Helper: `takeWhile (· != 0)` of a run of zero bytes is empty. -/
theorem takeWhile_replicate_zero (k : Nat) :
    (List.replicate k (0 : Nat)).takeWhile (fun b => b != 0) = [] := by
  cases k with
  | zero => rfl
  | succ n => simp [List.replicate_succ, List.takeWhile_cons]

/-- Helper: splitting a 16-byte block into four little-endian words and
re-expanding the words gives back the block. -/
theorem words_roundtrip (mb : List Nat) (hlen : mb.length = 16)
    (hb : ∀ b ∈ mb, b < 256) :
    ([fromBytesLE (mb.take 4), fromBytesLE ((mb.drop 4).take 4),
      fromBytesLE ((mb.drop 8).take 4), fromBytesLE ((mb.drop 12).take 4)].map
        toBytesLE4).flatten = mb := by
  have s1 : ∀ b ∈ mb.take 4, b < 256 := fun b h => hb b (List.take_subset _ _ h)
  have s2 : ∀ b ∈ (mb.drop 4).take 4, b < 256 :=
    fun b h => hb b (List.drop_subset _ _ (List.take_subset _ _ h))
  have s3 : ∀ b ∈ (mb.drop 8).take 4, b < 256 :=
    fun b h => hb b (List.drop_subset _ _ (List.take_subset _ _ h))
  have s4 : ∀ b ∈ (mb.drop 12).take 4, b < 256 :=
    fun b h => hb b (List.drop_subset _ _ (List.take_subset _ _ h))
  have t1 : (mb.take 4).length = 4 := by simp [hlen]
  have t2 : ((mb.drop 4).take 4).length = 4 := by simp [hlen]
  have t3 : ((mb.drop 8).take 4).length = 4 := by simp [hlen]
  have t4 : ((mb.drop 12).take 4).length = 4 := by simp [hlen]
  simp only [List.map_cons, List.map_nil, List.flatten_cons, List.flatten_nil,
    List.append_nil]
  rw [toBytes_fromBytes4 _ t1 s1, toBytes_fromBytes4 _ t2 s2,
    toBytes_fromBytes4 _ t3 s3, toBytes_fromBytes4 _ t4 s4]
  have h12 : (mb.drop 12).take 4 = mb.drop 12 :=
    List.take_of_length_le (by simp [hlen])
  have e3 : (mb.drop 8).take 4 ++ mb.drop 12 = mb.drop 8 := by
    have h : mb.drop 12 = (mb.drop 8).drop 4 := by simp [List.drop_drop]
    rw [h]
    exact List.take_append_drop 4 (mb.drop 8)
  have e2 : (mb.drop 4).take 4 ++ mb.drop 8 = mb.drop 4 := by
    have h : mb.drop 8 = (mb.drop 4).drop 4 := by simp [List.drop_drop]
    rw [h]
    exact List.take_append_drop 4 (mb.drop 4)
  rw [h12, e3, e2, List.take_append_drop]

/-- Claim C6: for every ASCII byte sequence of at most 16 bytes containing
no zero byte, unpacking the four words produced by packing it returns the
original sequence; and packing truncates to the first 16 bytes, so any
longer input packs identically to its 16-byte prefix. -/
theorem message_roundtrip :
    (∀ s : List Nat, s.length ≤ 16 → (∀ b ∈ s, b < 128) → (∀ b ∈ s, b ≠ 0) →
      unpack_message (pack_message s) = s) ∧
    (∀ s : List Nat, pack_message s = pack_message (s.take 16)) := by
  constructor
  · intro s hlen hascii hz
    have htake : s.take 16 = s := List.take_of_length_le hlen
    have hpadlen : (padTo16 s).length = 16 := by
      simp [padTo16]
      omega
    have hpadbound : ∀ b ∈ padTo16 s, b < 256 := by
      intro b hb
      rcases List.mem_append.mp hb with h | h
      · exact lt_trans (hascii b h) (by norm_num)
      · rw [List.eq_of_mem_replicate h]; norm_num
    have hjoin := words_roundtrip (padTo16 s) hpadlen hpadbound
    simp only [unpack_message, pack_message, htake, hjoin]
    rw [padTo16, takeWhile_append_of_all]
    · rw [takeWhile_replicate_zero, List.append_nil]
    · intro x hx
      simpa using hz x hx
  · intro s
    simp [pack_message, List.take_take]

/-- Claim C6 witness: `message_roundtrip` at the 5-byte ASCII input
"HELLO" (`[72, 69, 76, 76, 79]`) and, for truncation, at a 20-byte input of
letter X (88), which packs identically to its 16-byte prefix. -/
theorem message_roundtrip_witness :
    unpack_message (pack_message [72, 69, 76, 76, 79]) = [72, 69, 76, 76, 79] ∧
    pack_message (List.replicate 20 88) =
      pack_message ((List.replicate 20 88).take 16) :=
  ⟨message_roundtrip.1 [72, 69, 76, 76, 79] (by decide) (by decide) (by decide),
   message_roundtrip.2 (List.replicate 20 88)⟩

/-- One logical transport operation of a session.  `readXchg a` is the
two-phase register read of address `a` (select frame with command NONE, then
feature-report retrieval); `regWrite a v` is the WRITESTROBE feature report
built by `write_feat_report_frame a v`; `cmdSend c` is the bare command
frame built by `cmd_frame c`; `rawWrite p on` is the raw-pin output report
built by `set_ptt_state_raw_frame p on`. -/
inductive Event where
  | readXchg : Nat → Event
  | regWrite : Nat → Nat → Event
  | cmdSend : Nat → Event
  | rawWrite : Nat → Bool → Event

/-- Whether an event sends a write-style frame (register write, command
frame, or raw-pin write).  The read exchange sends only the command-NONE
select frame. -/
def isWriteStyleEvent : Event → Bool
  | Event.readXchg _ => false
  | Event.regWrite _ _ => true
  | Event.cmdSend _ => true
  | Event.rawWrite _ _ => true

/-- Source `read(device, address)`: the device is modelled as a map from
address to register content; the `<L` unpack of the returned feature report
always yields a value below 2^32. -/
def devRead (device : Nat → Nat) (address : Nat) : Nat :=
  device address % 4294967296

/-- The bytes of the ASCII signature `b"AIOC"` that register 0 must pack to
(source: `Struct("<L").pack(read(aioc, Register.MAGIC)) != b"AIOC"`). -/
def aiocMagicBytes : List Nat := [0x41, 0x49, 0x4F, 0x43]

/-- The parsed command-line options of one invocation of `main`, one field
per argparse option that drives protocol traffic (output formatting and
device-selection options are CLI plumbing outside the protocol layer).
String-valued flag-union options are `Option String`; the `--set-ptt*-state`
choices on/off are `Option Bool`; `--foxhunt-message` holds the byte
sequence produced by the replacing Python ASCII `encode` (every byte below
256); the audio choices hold the already-mapped enum values. -/
structure Args where
  list_ptt_sources : Bool
  defaults : Bool
  reboot : Bool
  dump : Bool
  swap_ptt : Bool
  auto_ptt1 : Bool
  ptt1 : Option String
  ptt2 : Option String
  set_usb : Option (Nat × Nat)
  vol_up : Option String
  vol_dn : Option String
  vptt_lvlctrl : Option Nat
  vptt_timctrl : Option Nat
  vcos_lvlctrl : Option Nat
  vcos_timctrl : Option Nat
  store : Bool
  set_ptt1_state : Option Bool
  set_ptt2_state : Option Bool
  enable_hwcos : Bool
  enable_vcos : Bool
  foxhunt_volume : Option Nat
  foxhunt_wpm : Option Nat
  foxhunt_interval : Option Nat
  foxhunt_get_settings : Bool
  foxhunt_message : Option (List Nat)
  foxhunt_get_message : Bool
  audio_rx_gain : Option Nat
  audio_tx_boost : Option Nat
  audio_get_settings : Bool

/-- Run a session: each step contributes its events; a step whose flag is
false aborts the session (`sys.exit` or an uncaught exception in the
source), discarding everything after it. -/
def runSteps : List (List Event × Bool) → List Event
  | [] => []
  | (es, ok) :: rest => es ++ (if ok then runSteps rest else [])

/-- A scalar register option (`--vptt-lvlctrl` etc.): when present, write
the value then read the register back for display; a value the `<BBBL` pack
rejects raises `struct.error` before any event. -/
def scalarWriteStep (address : Nat) (arg : Option Nat) : List Event × Bool :=
  match arg with
  | none => ([], true)
  | some v =>
    if v < 4294967296 then ([Event.regWrite address v, Event.readXchg address], true)
    else ([], false)

/-- A flag-union option (`--ptt1`, `--vol-up`, ...): parse the `|`-separated
names; a `KeyError` (unknown name) aborts before any event; otherwise write
the summed mask. -/
def parseWriteStep (parse : String → Option Nat) (address : Nat)
    (arg : Option String) : List Event × Bool :=
  match arg with
  | none => ([], true)
  | some s =>
    match parse s with
    | none => ([], false)
    | some v =>
      if v < 4294967296 then ([Event.regWrite address v], true) else ([], false)

/-- Source `main`, dump branch: reads the two PTT sources, the four button
sources, then every register in `Register` definition order via `dump`. -/
def dumpEvents : List Event :=
  [Event.readXchg Register.AIOC_IOMUX0, Event.readXchg Register.AIOC_IOMUX1,
   Event.readXchg Register.CM108_IOMUX0, Event.readXchg Register.CM108_IOMUX1,
   Event.readXchg Register.CM108_IOMUX2, Event.readXchg Register.CM108_IOMUX3] ++
  registerTable.map Event.readXchg

/-- Source `main`, foxhunt control branch: read FOXHUNT_CTRL, keep the
current value of each field not being changed, pack and write, read back. -/
def foxhuntCtrlStep (args : Args) (device : Nat → Nat) : List Event × Bool :=
  if args.foxhunt_volume.isSome || args.foxhunt_wpm.isSome ||
      args.foxhunt_interval.isSome then
    let current := devRead device Register.FOXHUNT_CTRL
    let packed := pack_foxhunt (args.foxhunt_volume.getD (foxhunt_volume_field current))
      (args.foxhunt_wpm.getD (foxhunt_wpm_field current))
      (args.foxhunt_interval.getD (foxhunt_interval_field current))
    if packed < 4294967296 then
      ([Event.readXchg Register.FOXHUNT_CTRL,
        Event.regWrite Register.FOXHUNT_CTRL packed,
        Event.readXchg Register.FOXHUNT_CTRL], true)
    else ([Event.readXchg Register.FOXHUNT_CTRL], false)
  else ([], true)

/-- Source `main`, foxhunt message branch: pack the (already
ASCII-encoded) text into four words and write them to FOXHUNT_MSG0..3 in
address order. -/
def foxhuntMessageStep (args : Args) : List Event × Bool :=
  match args.foxhunt_message with
  | none => ([], true)
  | some bs =>
    (List.zipWith Event.regWrite
      [Register.FOXHUNT_MSG0, Register.FOXHUNT_MSG1,
       Register.FOXHUNT_MSG2, Register.FOXHUNT_MSG3]
      (pack_message bs), true)

/-- Source `main`, transcribed branch by branch in source order.
`--list-ptt-sources` exits before the device is even opened; the magic
check gates everything after it.  The swap branch reuses the PTT source
values read by the dump branch, i.e. the current contents of the device map
(without `--dump` the source would hit a `NameError` there; that slip is
outside the claims checked here and unreachable behind a failed magic
check). -/
def sessionSteps (args : Args) (device : Nat → Nat) : List (List Event × Bool) :=
  [([], !args.list_ptt_sources),
   ([Event.readXchg Register.MAGIC],
     leBytes4 (devRead device Register.MAGIC) == aiocMagicBytes),
   ((if args.defaults then [Event.cmdSend Command.DEFAULTS] else []), true),
   ((if args.dump then dumpEvents else []), true),
   ((if args.swap_ptt then
       [Event.regWrite Register.AIOC_IOMUX0 (devRead device Register.AIOC_IOMUX1),
        Event.regWrite Register.AIOC_IOMUX1 (devRead device Register.AIOC_IOMUX0),
        Event.readXchg Register.AIOC_IOMUX0, Event.readXchg Register.AIOC_IOMUX1]
     else []), true),
   ((if args.auto_ptt1 then
       [Event.regWrite Register.AIOC_IOMUX0 0x1000,
        Event.readXchg Register.AIOC_IOMUX0, Event.readXchg Register.AIOC_IOMUX1]
     else []), true),
   parseWriteStep parse_ptt_source Register.AIOC_IOMUX0 args.ptt1,
   parseWriteStep parse_ptt_source Register.AIOC_IOMUX1 args.ptt2,
   ((if args.ptt1.isSome || args.ptt2.isSome then
       [Event.readXchg Register.AIOC_IOMUX0, Event.readXchg Register.AIOC_IOMUX1]
     else []), true),
   (match args.set_usb with
    | none => ([], true)
    | some (vid, pid) =>
      if pack_usbid vid pid < 4294967296 then
        ([Event.regWrite Register.USBID (pack_usbid vid pid),
          Event.readXchg Register.USBID], true)
      else ([], false)),
   parseWriteStep parse_btn_source Register.CM108_IOMUX0 args.vol_up,
   parseWriteStep parse_btn_source Register.CM108_IOMUX1 args.vol_dn,
   ((if args.vol_up.isSome || args.vol_dn.isSome then
       [Event.readXchg Register.CM108_IOMUX0, Event.readXchg Register.CM108_IOMUX1]
     else []), true),
   scalarWriteStep Register.VPTT_LVLCTRL args.vptt_lvlctrl,
   scalarWriteStep Register.VPTT_TIMCTRL args.vptt_timctrl,
   scalarWriteStep Register.VCOS_LVLCTRL args.vcos_lvlctrl,
   scalarWriteStep Register.VCOS_TIMCTRL args.vcos_timctrl,
   ((if args.enable_hwcos then
       [Event.regWrite Register.CM108_IOMUX0 0,
        Event.regWrite Register.CM108_IOMUX1 0x20000,
        Event.readXchg Register.CM108_IOMUX0, Event.readXchg Register.CM108_IOMUX1]
     else []), true),
   ((if args.enable_vcos then
       [Event.regWrite Register.CM108_IOMUX0 0x20000,
        Event.regWrite Register.CM108_IOMUX1 0x1000000,
        Event.readXchg Register.CM108_IOMUX0, Event.readXchg Register.CM108_IOMUX1]
     else []), true),
   ((if args.foxhunt_get_settings then [Event.readXchg Register.FOXHUNT_CTRL]
     else []), true),
   ((if args.foxhunt_get_message then
       [Event.readXchg Register.FOXHUNT_MSG0, Event.readXchg Register.FOXHUNT_MSG1,
        Event.readXchg Register.FOXHUNT_MSG2, Event.readXchg Register.FOXHUNT_MSG3]
     else []), true),
   foxhuntCtrlStep args device,
   foxhuntMessageStep args,
   ((if args.audio_get_settings then
       [Event.readXchg Register.AUDIO_RX, Event.readXchg Register.AUDIO_TX]
     else []), true),
   (match args.audio_rx_gain with
    | none => ([], true)
    | some g => ([Event.regWrite Register.AUDIO_RX g,
        Event.readXchg Register.AUDIO_RX], true)),
   (match args.audio_tx_boost with
    | none => ([], true)
    | some b => ([Event.regWrite Register.AUDIO_TX b,
        Event.readXchg Register.AUDIO_TX], true)),
   ((if args.store then [Event.cmdSend Command.STORE] else []), true),
   (match args.set_ptt1_state with
    | none => ([], true)
    | some st => ([Event.rawWrite PTTChannel.PTT1 st], true)),
   (match args.set_ptt2_state with
    | none => ([], true)
    | some st => ([Event.rawWrite PTTChannel.PTT2 st], true)),
   ((if args.reboot then [Event.cmdSend Command.REBOOT] else []), true)]

/-- Source `main`: the sequence of transport operations one invocation
performs against the device. -/
def main_session (args : Args) (device : Nat → Nat) : List Event :=
  runSteps (sessionSteps args device)

/-- Claim C7: in every session that reaches the magic check, when register 0
does not decode (as 4 little-endian bytes) to the ASCII signature "AIOC",
the session aborts immediately after that single read: the trace is exactly
the one read exchange, and no write-style frame (register write, command
frame, or raw-pin write) is ever sent. -/
theorem magic_gate (args : Args) (device : Nat → Nat)
    (hlist : args.list_ptt_sources = false)
    (hmagic : leBytes4 (devRead device Register.MAGIC) ≠ aiocMagicBytes) :
    main_session args device = [Event.readXchg Register.MAGIC] ∧
    (main_session args device).all (fun e => !isWriteStyleEvent e) = true := by
  have hb : (leBytes4 (devRead device Register.MAGIC) == aiocMagicBytes) = false :=
    beq_eq_false_iff_ne.mpr hmagic
  have htrace : main_session args device = [Event.readXchg Register.MAGIC] := by
    simp [main_session, sessionSteps, runSteps, hlist, hb]
  refine ⟨htrace, ?_⟩
  rw [htrace]
  rfl

/-- An invocation with no operation options set. -/
def quietArgs : Args :=
  ⟨false, false, false, false, false, false, none, none, none, none, none,
   none, none, none, none, false, none, none, false, false, none, none, none,
   false, none, false, none, none, false⟩

/-- Claim C7 witness: `magic_gate` at a concrete device whose register 0
holds 0 (decoding to bytes `[0,0,0,0]`, not "AIOC"): the session is the
single magic read and sends no write-style frame. -/
theorem magic_gate_witness :
    main_session quietArgs (fun _ => 0) = [Event.readXchg Register.MAGIC] ∧
    (main_session quietArgs (fun _ => 0)).all (fun e => !isWriteStyleEvent e) = true :=
  magic_gate quietArgs (fun _ => 0) rfl (by decide)

end AiocUtil
